import Mathlib

/-!
Verification of the Nifty investment-tracker indicator and signal engine.

Prices are modelled as exact rationals (`ℚ`), calendar dates as day
numbers (`ℕ`), timestamps as epoch milliseconds (`ℤ`).  Array accesses
that can be out of range in the source are modelled with `List.get?`,
and the one place where the source can raise a `TypeError`
(`detectCrossovers` reading `historicalData[i].date`) is modelled with
`Except`.
-/

/-- A raw historical bar as built by `processHistoricalData`:
the `close` (and the other quote fields) may be `null` in the feed. -/
structure RawBar where
  date : ℕ
  close : Option ℚ
  high : Option ℚ
  low : Option ℚ
  openPrice : Option ℚ
  volume : Option ℤ
  deriving Repr, DecidableEq

/-- `processHistoricalData` (enhanced tracker): map the feed rows to bar
objects, then drop every bar whose close is null. -/
def processHistoricalData (raw : List RawBar) : List RawBar :=
  (raw.map (fun r =>
    ({ date := r.date, close := r.close, high := r.high, low := r.low,
       openPrice := r.openPrice, volume := r.volume } : RawBar))).filter
    (fun item => item.close.isSome)

/-- `quote.close.filter(p => p !== null)` in `processYahooData` (app.js):
the derived price series keeps exactly the non-null closes, in order. -/
def filterCloses (closes : List (Option ℚ)) : List ℚ :=
  closes.filterMap id

/-- Tail of the EMA recurrence: given the previous EMA value, fold the
remaining prices with `ema = p*k + prev*(1-k)`. -/
def emaRec (k : ℚ) (prev : ℚ) : List ℚ → List ℚ
  | [] => []
  | p :: ps =>
    let e := p * k + prev * (1 - k)
    e :: emaRec k e ps

/-- `calculateEMA(prices, period)`: empty when there are fewer prices
than the period; otherwise a seed SMA over the first `period` prices
followed by the EMA recurrence over the remaining prices. -/
def calculateEMA (prices : List ℚ) (period : ℕ) : List ℚ :=
  if prices.length < period then []
  else
    let k : ℚ := 2 / (period + 1)
    let sma : ℚ := (prices.take period).sum / period
    sma :: emaRec k sma (prices.drop period)

/-- First differences of consecutive prices (`changes` in `calculateRSI`). -/
def diffs : List ℚ → List ℚ
  | a :: b :: rest => (b - a) :: diffs (b :: rest)
  | _ => []

/-- JavaScript `Array.prototype.slice(-n)`: the last `n` elements, the
whole array when `n = 0` (since `slice(-0)` is `slice(0)`). -/
def sliceLast (xs : List ℚ) (n : ℕ) : List ℚ :=
  if n = 0 then xs else xs.drop (xs.length - n)

/-- `FALLBACK_DATA.rsi` in app.js. -/
def FALLBACK_RSI : ℚ := 5321 / 100

/-- `calculateRSI(prices, period)` from app.js: gains and losses over
the last `period` first differences, each averaged over the fixed
`period`; result 100 when the average loss is zero. -/
def calculateRSI (prices : List ℚ) (period : ℕ) : ℚ :=
  if prices.length < period + 1 then FALLBACK_RSI
  else
    let changes := diffs prices
    let recentChanges := sliceLast changes period
    let gains := recentChanges.filter (fun c => decide (0 < c))
    let losses := (recentChanges.filter (fun c => decide (c < 0))).map (fun c => |c|)
    let avgGain : ℚ := if gains.length = 0 then 0 else gains.sum / period
    let avgLoss : ℚ := if losses.length = 0 then 0 else losses.sum / period
    if avgLoss = 0 then 100
    else
      let rs := avgGain / avgLoss
      100 - 100 / (1 + rs)

/-- `THRESHOLDS.EMA_PERIOD_20`. -/
def EMA_PERIOD_20 : ℕ := 20

/-- `THRESHOLDS.EMA_PERIOD_50`. -/
def EMA_PERIOD_50 : ℕ := 50

/-- `startIndex` in `detectCrossovers`. -/
def crossStartIndex : ℕ := max (EMA_PERIOD_50 - EMA_PERIOD_20) 1

/-- The crossover type of an event. -/
inductive CrossType where
  | BULLISH_CROSS
  | BEARISH_CROSS
  deriving Repr, DecidableEq

/-- A crossover event as pushed by `detectCrossovers`; `price` is the
bar's close, which the source does not null-check here. -/
structure Crossover where
  date : ℕ
  type : CrossType
  price : Option ℚ
  ema20 : ℚ
  ema50 : ℚ
  deriving Repr, DecidableEq

/-- JavaScript truthiness of an EMA lookup: an absent (out-of-range)
value and the number `0` are both falsy (`!current20` in the source). -/
def jsVal (o : Option ℚ) : Option ℚ :=
  match o with
  | some x => if x = 0 then none else some x
  | none => none

/-- The crossover classification of one comparison step (the two `if`
chains in `detectCrossovers`): ties on the previous step may cross, the
current step needs a strict inequality. -/
def classifyCross (prev20 prev50 current20 current50 : ℚ) : Option CrossType :=
  if prev20 ≤ prev50 ∧ current20 > current50 then some .BULLISH_CROSS
  else if prev20 ≥ prev50 ∧ current20 < current50 then some .BEARISH_CROSS
  else none

/-- One iteration of the `detectCrossovers` loop at index `i`: look up
the four EMA values with the source's index arithmetic
(`i - startIndex + EMA_PERIOD_20 - 1` for the slow series), skip the
step if any is falsy, and on a detected cross read
`historicalData[i]` — which throws when that bar does not exist. -/
def crossStep (ema20 ema50 : List ℚ) (bars : List RawBar) (i : ℕ) :
    Except String (Option Crossover) :=
  match jsVal (ema20.get? i),
        jsVal (ema50.get? (i - crossStartIndex + EMA_PERIOD_20 - 1)),
        jsVal (ema20.get? (i - 1)),
        jsVal (ema50.get? (i - crossStartIndex + EMA_PERIOD_20 - 2)) with
  | some current20, some current50, some prev20, some prev50 =>
    match classifyCross prev20 prev50 current20 current50 with
    | some t =>
      match bars.get? i with
      | some bar =>
        .ok (some { date := bar.date, type := t, price := bar.close,
                    ema20 := current20, ema50 := current50 })
      | none => .error "TypeError: reading date of undefined"
    | none => .ok none
  | _, _, _, _ => .ok none

/-- Run `crossStep` over a list of loop indices, collecting events in
order, propagating the first thrown error. -/
def crossLoop (ema20 ema50 : List ℚ) (bars : List RawBar) :
    List ℕ → Except String (List Crossover)
  | [] => .ok []
  | i :: is =>
    match crossStep ema20 ema50 bars i with
    | .error e => .error e
    | .ok o =>
      match crossLoop ema20 ema50 bars is with
      | .error e => .error e
      | .ok rest =>
        .ok (match o with
             | some c => c :: rest
             | none => rest)

/-- `detectCrossovers` of the enhanced tracker: loop from `startIndex`
to the end of the fast EMA sequence.  When either sequence has fewer
than two points, the source returns early leaving the previous
crossover list in place (initially empty); that early exit is modelled
as the empty event list. -/
def detectCrossovers (ema20 ema50 : List ℚ) (bars : List RawBar) :
    Except String (List Crossover) :=
  if ema20.length < 2 ∨ ema50.length < 2 then .ok []
  else crossLoop ema20 ema50 bars
    (List.range' crossStartIndex (ema20.length - crossStartIndex))

/-- Modelled from the spec: the intended crossover detector of §4.3,
which the repository does not implement (its index arithmetic is called
a latent bug in the design notes).  Both EMA sequences end on the last
bar, so fast index `i` and slow index `j` refer to the same calendar
bar exactly when they are the same distance from their sequence ends;
each aligned step with two points on both sides is classified with the
same tie convention as the source. -/
def detectCrossoversAligned (fast slow : List ℚ) (bars : List RawBar) :
    List Crossover :=
  let offset := fast.length - slow.length
  (List.range slow.length).filterMap (fun j =>
    if j = 0 then none
    else
      match fast.get? (offset + j - 1), fast.get? (offset + j),
            slow.get? (j - 1), slow.get? j,
            bars.get? (bars.length - slow.length + j) with
      | some prevFast, some currentFast, some prevSlow, some currentSlow,
        some bar =>
        (classifyCross prevFast prevSlow currentFast currentSlow).map
          (fun t => { date := bar.date, type := t, price := bar.close,
                      ema20 := currentFast, ema50 := currentSlow })
      | _, _, _, _, _ => none)

/-- Trend direction of `getCurrentEMATrend`. -/
inductive TrendDir where
  | BULLISH
  | BEARISH
  | UNKNOWN
  deriving Repr, DecidableEq

/-- The trend state returned by `getCurrentEMATrend`. -/
structure TrendState where
  trend : TrendDir
  ema20 : Option ℚ
  ema50 : Option ℚ
  lastCrossover : Option Crossover
  daysSinceCross : Option ℤ
  deriving Repr, DecidableEq

/-- `getCurrentEMATrend`: UNKNOWN when either EMA sequence is empty,
otherwise BULLISH exactly on a strict `last20 > last50`; days since the
last crossover are counted from `today` (a day number). -/
def getCurrentEMATrend (ema20 ema50 : List ℚ) (crossovers : List Crossover)
    (today : ℤ) : TrendState :=
  match ema20.getLast?, ema50.getLast? with
  | some current20, some current50 =>
    { trend := if current20 > current50 then .BULLISH else .BEARISH
      ema20 := some current20
      ema50 := some current50
      lastCrossover := crossovers.getLast?
      daysSinceCross := crossovers.getLast?.map (fun c => today - (c.date : ℤ)) }
  | _, _ =>
    { trend := .UNKNOWN, ema20 := none, ema50 := none,
      lastCrossover := none, daysSinceCross := none }

/-- An investment signal. -/
inductive Signal where
  | STRONG_BUY
  | BUY
  | WAIT
  | AVOID
  deriving Repr, DecidableEq

/-- The quote snapshot (`this.data`) consumed by the signal synthesizer. -/
structure QuoteData where
  current_price : ℚ
  previous_close : ℚ
  openPrice : ℚ
  high_52w : ℚ
  low_52w : ℚ
  all_time_high : ℚ
  pe_ratio : ℚ
  rsi : ℚ
  dma_200 : ℚ
  deriving Repr, DecidableEq

/-- `THRESHOLDS.RSI_OVERSOLD`. -/
def RSI_OVERSOLD : ℚ := 30

/-- `THRESHOLDS.PE_ATTRACTIVE`. -/
def PE_ATTRACTIVE : ℚ := 21

/-- `THRESHOLDS.CORRECTION_THRESHOLD`. -/
def CORRECTION_THRESHOLD : ℚ := 10

/-- `calculateCorrection`: percentage distance of the current price
from the all-time high (negative below the high). -/
def calculateCorrection (d : QuoteData) : ℚ :=
  (d.current_price - d.all_time_high) / d.all_time_high * 100

/-- The `valueConditions` object of `calculateInvestmentSignals`. -/
structure ValueConditions where
  correction : Bool
  rsi : Bool
  pe : Bool
  deriving Repr, DecidableEq

/-- The `momentumConditions` object of `calculateInvestmentSignals`. -/
structure MomentumConditions where
  bullishTrend : Bool
  recentCross : Bool
  priceAboveEMAs : Bool
  deriving Repr, DecidableEq

/-- The full result object of `calculateInvestmentSignals`. -/
structure Signals where
  valueSignal : Signal
  valueConditions : ValueConditions
  valueDescription : String
  momentumSignal : Signal
  momentumConditions : MomentumConditions
  momentumDescription : String
  combinedSignal : Signal
  combinedDescription : String
  deriving Repr, DecidableEq

/-- `getValueStrategyDescription`, keyed by the number of met conditions. -/
def getValueStrategyDescription (conditions : ValueConditions) : String :=
  let metCount := (if conditions.correction then 1 else 0) +
    (if conditions.rsi then 1 else 0) + (if conditions.pe then 1 else 0)
  if metCount = 3 then "All value conditions met - Strong buy opportunity"
  else if metCount = 2 then "Most value conditions met - Consider buying"
  else if metCount = 1 then "Few conditions met - Wait for better entry"
  else "No value conditions met - Avoid buying"

/-- `getMomentumStrategyDescription`, bucketed by crossover age
(a null `daysSinceCross` coerces to 0 in the source's comparisons). -/
def getMomentumStrategyDescription (trend : TrendState) : String :=
  match trend.trend with
  | .BULLISH =>
    let d := trend.daysSinceCross.getD 0
    if d < 10 then "Fresh bullish crossover - Strong momentum"
    else if d < 30 then "Bullish trend continues - Good momentum"
    else "Extended bullish trend - Monitor for reversal"
  | .BEARISH => "Bearish trend - Avoid new positions"
  | .UNKNOWN => "Trend unclear - Wait for confirmation"

/-- `getCombinedDescription`. -/
def getCombinedDescription (signal : Signal) : String :=
  match signal with
  | .STRONG_BUY => "Both strategies bullish - Excellent opportunity"
  | .BUY => "One strategy bullish - Good opportunity"
  | .AVOID => "Bearish momentum - Avoid new positions"
  | _ => "Mixed signals - Wait for clarity"

/-- The combined-signal branch chain of `calculateInvestmentSignals`,
in source order: both BUY, then either BUY, then momentum AVOID. -/
def combineSignals (valueSignal momentumSignal : Signal) : Signal :=
  if valueSignal = .BUY ∧ momentumSignal = .BUY then .STRONG_BUY
  else if valueSignal = .BUY ∨ momentumSignal = .BUY then .BUY
  else if momentumSignal = .AVOID then .AVOID
  else .WAIT

/-- `calculateInvestmentSignals` of the enhanced tracker, with the
trend state passed explicitly (the source reads it from
`getCurrentEMATrend()`); note the value correction condition is
`correction <= -CORRECTION_THRESHOLD`, not an absolute value. -/
def calculateInvestmentSignals (d : QuoteData) (emaTrend : TrendState) :
    Signals :=
  let correction := calculateCorrection d
  let valueConditions : ValueConditions :=
    { correction := decide (correction ≤ -CORRECTION_THRESHOLD)
      rsi := decide (d.rsi < RSI_OVERSOLD)
      pe := decide (d.pe_ratio < PE_ATTRACTIVE) }
  let valueSignal :=
    if valueConditions.correction && valueConditions.rsi && valueConditions.pe
    then Signal.BUY else Signal.WAIT
  let momentumConditions : MomentumConditions :=
    { bullishTrend := decide (emaTrend.trend = .BULLISH)
      recentCross :=
        match emaTrend.lastCrossover with
        | some c => decide (c.type = .BULLISH_CROSS) &&
            decide (emaTrend.daysSinceCross.getD 0 < 30)
        | none => false
      priceAboveEMAs := decide (d.current_price > emaTrend.ema20.getD 0) &&
        decide (d.current_price > emaTrend.ema50.getD 0) }
  let momentumSignal :=
    if momentumConditions.bullishTrend then Signal.BUY
    else if emaTrend.trend = .BEARISH then Signal.AVOID
    else Signal.WAIT
  let combinedSignal := combineSignals valueSignal momentumSignal
  { valueSignal := valueSignal
    valueConditions := valueConditions
    valueDescription := getValueStrategyDescription valueConditions
    momentumSignal := momentumSignal
    momentumConditions := momentumConditions
    momentumDescription := getMomentumStrategyDescription emaTrend
    combinedSignal := combinedSignal
    combinedDescription := getCombinedDescription combinedSignal }

/-- `updateInvestmentSignal` of app.js: its correction condition uses
`Math.abs(correctionPercent) >= CORRECTION_THRESHOLD`, and the badge is
BUY exactly when all three conditions hold. -/
def updateInvestmentSignal (d : QuoteData) : Signal :=
  let correctionPercent :=
    (d.current_price - d.all_time_high) / d.all_time_high * 100
  if decide (|correctionPercent| ≥ CORRECTION_THRESHOLD) &&
     decide (d.rsi < RSI_OVERSOLD) && decide (d.pe_ratio < PE_ATTRACTIVE)
  then Signal.BUY else Signal.WAIT

/-- A persisted cache entry, as written by `cacheData`. -/
structure CacheEntry (α : Type) where
  data : α
  timestamp : ℤ
  version : String
  deriving Repr, DecidableEq

/-- The schema tag written by `cacheData`. -/
def CACHE_VERSION : String := "2.0"

/-- `cacheData`: wrap the value with the write time and schema tag. -/
def cacheData {α : Type} (d : α) (now : ℤ) : CacheEntry α :=
  { data := d, timestamp := now, version := CACHE_VERSION }

/-- Freshness window of the `nifty_current` entry (10 minutes, ms). -/
def QUOTE_CACHE_WINDOW : ℤ := 600000

/-- Freshness window of the `nifty_historical` entry (1 hour, ms). -/
def HISTORICAL_CACHE_WINDOW : ℤ := 3600000

/-- Freshness window of the `nifty_ema` entry (1 hour, ms). -/
def EMA_CACHE_WINDOW : ℤ := 3600000

/-- The `this.emaData` bundle. -/
structure EmaData where
  ema20 : List ℚ
  ema50 : List ℚ
  crossovers : List Crossover
  deriving Repr, DecidableEq

/-- The mutable tracker fields that `loadCachedData` may install into. -/
structure TrackerState where
  data : Option QuoteData
  historicalData : List RawBar
  emaData : EmaData
  deriving Repr, DecidableEq

/-- The three localStorage keys read by `loadCachedData`. -/
structure CacheStore where
  current : Option (CacheEntry QuoteData)
  historical : Option (CacheEntry (List RawBar))
  ema : Option (CacheEntry EmaData)
  deriving Repr, DecidableEq

/-- `loadCachedData`: each entry is installed only when its version
matches the schema tag and its age is within the per-kind freshness
window; otherwise the tracker state is left unchanged. -/
def loadCachedData (store : CacheStore) (now : ℤ) (st : TrackerState) :
    TrackerState :=
  let newData :=
    match store.current with
    | some cached =>
      if cached.version = CACHE_VERSION ∧
          now - cached.timestamp < QUOTE_CACHE_WINDOW
      then some cached.data else st.data
    | none => st.data
  let newHistorical :=
    match store.historical with
    | some cached =>
      if cached.version = CACHE_VERSION ∧
          now - cached.timestamp < HISTORICAL_CACHE_WINDOW
      then cached.data else st.historicalData
    | none => st.historicalData
  let newEma :=
    match store.ema with
    | some cached =>
      if cached.version = CACHE_VERSION ∧
          now - cached.timestamp < EMA_CACHE_WINDOW
      then cached.data else st.emaData
    | none => st.emaData
  { data := newData, historicalData := newHistorical, emaData := newEma }

theorem emaRec_length (k prev : ℚ) (ps : List ℚ) :
    (emaRec k prev ps).length = ps.length := by
  induction ps generalizing prev with
  | nil => rfl
  | cons p ps ih => simp [emaRec, ih]

theorem calculateEMA_length (prices : List ℚ) (period : ℕ)
    (h : ¬ prices.length < period) :
    (calculateEMA prices period).length = prices.length - period + 1 := by
  simp only [calculateEMA, if_neg h, List.length_cons, emaRec_length,
    List.length_drop]

/-- The step relation inside `emaRec`: element `j+1` of
`prev :: emaRec k prev ps` is obtained from element `j` and price
`ps[j]` by the EMA recurrence. -/
theorem emaRec_step (k : ℚ) (ps : List ℚ) (prev : ℚ) (j : ℕ)
    (h : j < ps.length) :
    ∃ p e, ps.get? j = some p ∧ (prev :: emaRec k prev ps).get? j = some e ∧
      (emaRec k prev ps).get? j = some (p * k + e * (1 - k)) := by
  induction ps generalizing prev j with
  | nil => simp at h
  | cons q qs ih =>
    cases j with
    | zero =>
      exact ⟨q, prev, rfl, rfl, rfl⟩
    | succ j =>
      have hj : j < qs.length := by simpa using h
      obtain ⟨p, e, hp, he, hrec⟩ := ih (q * k + prev * (1 - k)) j hj
      exact ⟨p, e, hp, he, hrec⟩

theorem emaRec_replicate (k c : ℚ) (m : ℕ) :
    emaRec k c (List.replicate m c) = List.replicate m c := by
  induction m with
  | zero => rfl
  | succ m ih =>
    have hc : c * k + c * (1 - k) = c := by ring
    simp only [List.replicate_succ, emaRec, hc, ih]

theorem calculateEMA_replicate (n p : ℕ) (c : ℚ) (hp : 0 < p)
    (hpn : p ≤ n) :
    calculateEMA (List.replicate n c) p = List.replicate (n - p + 1) c := by
  have hnot : ¬ (List.replicate n c).length < p := by
    simp only [List.length_replicate]; omega
  have hsum : ((List.replicate n c).take p).sum / (p : ℚ) = c := by
    rw [List.take_replicate, Nat.min_eq_left hpn, List.sum_replicate,
      nsmul_eq_mul]
    have hp0 : (p : ℚ) ≠ 0 := Nat.cast_ne_zero.mpr hp.ne'
    field_simp
  simp only [calculateEMA, if_neg hnot, hsum, List.drop_replicate,
    emaRec_replicate]
  rw [← List.replicate_succ]

theorem diffs_length : (l : List ℚ) → (diffs l).length = l.length - 1
  | [] => rfl
  | [_] => rfl
  | a :: b :: r => by
    have ih := diffs_length (b :: r)
    simp only [diffs, List.length_cons] at ih ⊢
    omega

theorem mem_diffs_neg : (l : List ℚ) → List.Chain' (· > ·) l →
    ∀ x ∈ diffs l, x < 0
  | [], _, x, hx => by simp [diffs] at hx
  | [_], _, x, hx => by simp [diffs] at hx
  | a :: b :: r, hchain, x, hx => by
    rw [List.chain'_cons] at hchain
    simp only [diffs, List.mem_cons] at hx
    rcases hx with rfl | hx
    · linarith [hchain.1]
    · exact mem_diffs_neg (b :: r) hchain.2 x hx

theorem sliceLast_subset (xs : List ℚ) (n : ℕ) :
    ∀ x ∈ sliceLast xs n, x ∈ xs := by
  intro x hx
  unfold sliceLast at hx
  split at hx
  · exact hx
  · exact List.drop_subset _ xs hx

theorem sliceLast_length_pos (xs : List ℚ) (n : ℕ) (hn : 0 < n)
    (hxs : n ≤ xs.length) : 0 < (sliceLast xs n).length := by
  unfold sliceLast
  rw [if_neg hn.ne', List.length_drop]
  omega

/-- C4: for every price sequence and positive period, `calculateEMA`
returns the empty sequence when the input is shorter than the period
(no exception), and otherwise a sequence of length
`len(prices) - period + 1` whose first element is the SMA of the first
`period` prices and whose later elements follow the recurrence
`ema = p*k + prev*(1-k)` with `k = 2/(period+1)`, `p` being the
corresponding input price. -/
theorem calculateEMA_spec (prices : List ℚ) (period : ℕ) (hp : 0 < period) :
    (prices.length < period → calculateEMA prices period = []) ∧
    (period ≤ prices.length →
      (calculateEMA prices period).length = prices.length - period + 1 ∧
      (calculateEMA prices period).get? 0 =
        some ((prices.take period).sum / period) ∧
      ∀ j, j < prices.length - period →
        ∃ p e, prices.get? (period + j) = some p ∧
          (calculateEMA prices period).get? j = some e ∧
          (calculateEMA prices period).get? (j + 1) =
            some (p * (2 / (period + 1)) + e * (1 - 2 / (period + 1)))) := by
  constructor
  · intro h
    simp [calculateEMA, if_pos h]
  · intro h
    have hnot : ¬ prices.length < period := not_lt.mpr h
    refine ⟨calculateEMA_length prices period hnot, ?_, ?_⟩
    · simp only [calculateEMA, if_neg hnot]
      rfl
    · intro j hj
      have hjlen : j < (prices.drop period).length := by
        rw [List.length_drop]; omega
      obtain ⟨p, e, hgp, hge, hrec⟩ :=
        emaRec_step (2 / (period + 1)) (prices.drop period)
          ((prices.take period).sum / period) j hjlen
      refine ⟨p, e, ?_, ?_, ?_⟩
      · rw [← List.get?_drop]
        exact hgp
      · simpa only [calculateEMA, if_neg hnot] using hge
      · simpa only [calculateEMA, if_neg hnot, List.get?_cons_succ] using hrec

theorem calculateEMA_spec_witness :
    (calculateEMA [(1 : ℚ), 2, 3] 2).length = 2 ∧
    (calculateEMA [(1 : ℚ), 2, 3] 2).get? 0 =
      some (([(1 : ℚ), 2, 3].take 2).sum / (2 : ℕ)) :=
  ⟨((calculateEMA_spec [(1 : ℚ), 2, 3] 2 (by norm_num)).2 (by decide)).1,
   ((calculateEMA_spec [(1 : ℚ), 2, 3] 2 (by norm_num)).2 (by decide)).2.1⟩

/-- C9: the engine filters bars with a null close out before any
indicator computation: `processHistoricalData` keeps exactly the bars
with a non-null close, in order, and the app.js price series keeps
exactly the non-null closes, in order; neither fails on such input. -/
theorem processHistoricalData_spec :
    (∀ raw : List RawBar,
      processHistoricalData raw = raw.filter (fun b => b.close.isSome)) ∧
    (∀ closes : List (Option ℚ),
      (filterCloses closes).map some = closes.filter (fun c => c.isSome)) := by
  constructor
  · intro raw
    unfold processHistoricalData
    rw [show (fun r : RawBar =>
        ({ date := r.date, close := r.close, high := r.high, low := r.low,
           openPrice := r.openPrice, volume := r.volume } : RawBar)) = id from rfl,
      List.map_id]
  · intro closes
    induction closes with
    | nil => rfl
    | cons c cs ih =>
      cases c <;> simp_all [filterCloses]

/-- C8: a value cached by `cacheData` and loaded by `loadCachedData`
within its per-kind freshness window (quote: 10 minutes, historical
bars and EMA bundle: 1 hour) is installed unchanged into the tracker
state, and an entry whose version differs from the schema tag or whose
age is not within its window is never installed. -/
theorem loadCachedData_spec (store : CacheStore) (now : ℤ) (st : TrackerState) :
    (∀ q t, store.current = some (cacheData q t) →
      now - t < QUOTE_CACHE_WINDOW → (loadCachedData store now st).data = some q) ∧
    (∀ bars t, store.historical = some (cacheData bars t) →
      now - t < HISTORICAL_CACHE_WINDOW →
      (loadCachedData store now st).historicalData = bars) ∧
    (∀ e t, store.ema = some (cacheData e t) →
      now - t < EMA_CACHE_WINDOW → (loadCachedData store now st).emaData = e) ∧
    (∀ c, store.current = some c →
      (c.version ≠ CACHE_VERSION ∨ QUOTE_CACHE_WINDOW ≤ now - c.timestamp) →
      (loadCachedData store now st).data = st.data) ∧
    (∀ c, store.historical = some c →
      (c.version ≠ CACHE_VERSION ∨ HISTORICAL_CACHE_WINDOW ≤ now - c.timestamp) →
      (loadCachedData store now st).historicalData = st.historicalData) ∧
    (∀ c, store.ema = some c →
      (c.version ≠ CACHE_VERSION ∨ EMA_CACHE_WINDOW ≤ now - c.timestamp) →
      (loadCachedData store now st).emaData = st.emaData) := by
  refine ⟨?_, ?_, ?_, ?_, ?_, ?_⟩
  · intro q t hq hfresh
    simp [loadCachedData, hq, cacheData, hfresh]
  · intro bars t hb hfresh
    simp [loadCachedData, hb, cacheData, hfresh]
  · intro e t he hfresh
    simp [loadCachedData, he, cacheData, hfresh]
  · intro c hc hbad
    have hcond : ¬(c.version = CACHE_VERSION ∧
        now - c.timestamp < QUOTE_CACHE_WINDOW) := by
      rcases hbad with h | h
      · exact fun hz => h hz.1
      · exact fun hz => absurd hz.2 (not_lt.mpr h)
    simp only [loadCachedData, hc]
    rw [if_neg hcond]
  · intro c hc hbad
    have hcond : ¬(c.version = CACHE_VERSION ∧
        now - c.timestamp < HISTORICAL_CACHE_WINDOW) := by
      rcases hbad with h | h
      · exact fun hz => h hz.1
      · exact fun hz => absurd hz.2 (not_lt.mpr h)
    simp only [loadCachedData, hc]
    rw [if_neg hcond]
  · intro c hc hbad
    have hcond : ¬(c.version = CACHE_VERSION ∧
        now - c.timestamp < EMA_CACHE_WINDOW) := by
      rcases hbad with h | h
      · exact fun hz => h hz.1
      · exact fun hz => absurd hz.2 (not_lt.mpr h)
    simp only [loadCachedData, hc]
    rw [if_neg hcond]

/-- C1: the source's `detectCrossovers` does not align the two EMA
sequences on calendar index.  On the spec's own test vector — fast EMA
`[10,12,9,11]` on dates 1..4, slow EMA `[11,10]` on dates 3..4 — it
emits nothing (its loop starts at raw index 30 and reads the slow
series at `i - 11`), while the calendar-aligned detector of §4.3
emits the bullish cross at date 4. -/
theorem detectCrossovers_alignment_bug :
    detectCrossovers [10, 12, 9, 11] [11, 10]
      [⟨1, some 10, none, none, none, none⟩, ⟨2, some 12, none, none, none, none⟩,
       ⟨3, some 9, none, none, none, none⟩, ⟨4, some 11, none, none, none, none⟩] =
      .ok [] ∧
    detectCrossoversAligned [10, 12, 9, 11] [11, 10]
      [⟨1, some 10, none, none, none, none⟩, ⟨2, some 12, none, none, none, none⟩,
       ⟨3, some 9, none, none, none, none⟩, ⟨4, some 11, none, none, none, none⟩] =
      [⟨4, .BULLISH_CROSS, some 11, 11, 10⟩] :=
  ⟨rfl, rfl⟩

theorem diffs_replicate : (n : ℕ) → (c : ℚ) →
    diffs (List.replicate n c) = List.replicate (n - 1) 0
  | 0, _ => rfl
  | 1, _ => rfl
  | n + 2, c => by
    have ih := diffs_replicate (n + 1) c
    simp only [List.replicate_succ, diffs, sub_self] at ih ⊢
    rw [ih]
    rfl

theorem rsi_losses_empty (prices : List ℚ) (period : ℕ)
    (hlen : period + 1 ≤ prices.length)
    (hpos : ∀ x ∈ sliceLast (diffs prices) period, 0 ≤ x) :
    calculateRSI prices period = 100 := by
  have hnot : ¬ prices.length < period + 1 := not_lt.mpr hlen
  have hloss :
      (sliceLast (diffs prices) period).filter (fun c => decide (c < 0)) = [] := by
    rw [List.filter_eq_nil_iff]
    intro a ha
    simpa using not_lt.mpr (hpos a ha)
  simp [calculateRSI, if_neg hnot, hloss]

theorem mem_diffs_pos : (l : List ℚ) → List.Chain' (· < ·) l →
    ∀ x ∈ diffs l, 0 < x
  | [], _, x, hx => by simp [diffs] at hx
  | [_], _, x, hx => by simp [diffs] at hx
  | a :: b :: r, hchain, x, hx => by
    rw [List.chain'_cons] at hchain
    simp only [diffs, List.mem_cons] at hx
    rcases hx with rfl | hx
    · linarith [hchain.1]
    · exact mem_diffs_pos (b :: r) hchain.2 x hx

/-- C5: whenever the last `period` consecutive differences contain no
strictly negative value (so the average loss is zero), `calculateRSI`
returns exactly 100; in particular every constant price sequence of
length at least `period + 1`, and every strictly increasing sequence of
length greater than the period, yields 100, not 50. -/
theorem calculateRSI_no_loss_spec :
    (∀ (prices : List ℚ) (period : ℕ), 0 < period →
      period + 1 ≤ prices.length →
      (∀ x ∈ sliceLast (diffs prices) period, 0 ≤ x) →
      calculateRSI prices period = 100) ∧
    (∀ (c : ℚ) (n period : ℕ), 0 < period → period + 1 ≤ n →
      calculateRSI (List.replicate n c) period = 100) ∧
    (∀ (prices : List ℚ) (period : ℕ), 0 < period →
      period + 1 ≤ prices.length → List.Chain' (· < ·) prices →
      calculateRSI prices period = 100) := by
  refine ⟨?_, ?_, ?_⟩
  · intro prices period _ hlen hpos
    exact rsi_losses_empty prices period hlen hpos
  · intro c n period _ hn
    apply rsi_losses_empty
    · simpa using hn
    · intro x hx
      have hx' := sliceLast_subset _ _ x hx
      rw [diffs_replicate n c] at hx'
      rw [List.eq_of_mem_replicate hx']
  · intro prices period _ hlen hchain
    apply rsi_losses_empty prices period hlen
    intro x hx
    exact (mem_diffs_pos prices hchain x (sliceLast_subset _ _ x hx)).le

theorem calculateRSI_no_loss_spec_witness :
    calculateRSI (List.replicate 15 (100 : ℚ)) 14 = 100 :=
  calculateRSI_no_loss_spec.2.1 100 15 14 (by norm_num) (by norm_num)

theorem rsi_body_bounds (G L : ℚ) (hG : 0 ≤ G) (hL : 0 ≤ L) :
    0 ≤ 100 - 100 / (1 + G / L) ∧ 100 - 100 / (1 + G / L) ≤ 100 := by
  have hrs : 0 ≤ G / L := div_nonneg hG hL
  constructor
  · have hle : 100 / (1 + G / L) ≤ 100 := div_le_self (by norm_num) (by linarith)
    linarith
  · have hge : 0 ≤ 100 / (1 + G / L) := div_nonneg (by norm_num) (by linarith)
    linarith

theorem gains_sum_nonneg (l : List ℚ) :
    0 ≤ (l.filter (fun c => decide (0 < c))).sum := by
  apply List.sum_nonneg
  intro a ha
  have := List.of_mem_filter ha
  simp only [decide_eq_true_eq] at this
  exact this.le

theorem losses_sum_nonneg (l : List ℚ) :
    0 ≤ ((l.filter (fun c => decide (c < 0))).map (fun c => |c|)).sum := by
  apply List.sum_nonneg
  intro a ha
  obtain ⟨b, _, rfl⟩ := List.mem_map.mp ha
  exact abs_nonneg b

/-- C6: for every price sequence of length at least `period + 1` the
RSI lies in `[0, 100]`, and for every strictly monotonically decreasing
sequence of that length the average gain is zero, so RS is zero and the
RSI is exactly `100 - 100/(1+0) = 0`. -/
theorem calculateRSI_bounds_spec :
    (∀ (prices : List ℚ) (period : ℕ), 0 < period →
      period + 1 ≤ prices.length →
      0 ≤ calculateRSI prices period ∧ calculateRSI prices period ≤ 100) ∧
    (∀ (prices : List ℚ) (period : ℕ), 0 < period →
      period + 1 ≤ prices.length → List.Chain' (· > ·) prices →
      calculateRSI prices period = 0) := by
  constructor
  · intro prices period _ hlen
    have hnot : ¬ prices.length < period + 1 := not_lt.mpr hlen
    simp only [calculateRSI]
    rw [if_neg hnot]
    split
    · norm_num
    · split
      · norm_num
      · apply rsi_body_bounds
        · split
          · norm_num
          · exact div_nonneg (gains_sum_nonneg _) (Nat.cast_nonneg period)
        · exact div_nonneg (losses_sum_nonneg _) (Nat.cast_nonneg period)
  · intro prices period hp hlen hchain
    have hnot : ¬ prices.length < period + 1 := not_lt.mpr hlen
    have hneg : ∀ x ∈ sliceLast (diffs prices) period, x < 0 := fun x hx =>
      mem_diffs_neg prices hchain x (sliceLast_subset _ _ x hx)
    have hgains :
        (sliceLast (diffs prices) period).filter (fun c => decide (0 < c)) = [] := by
      rw [List.filter_eq_nil_iff]
      intro a ha
      simpa using not_lt.mpr (hneg a ha).le
    have hlossfil :
        (sliceLast (diffs prices) period).filter (fun c => decide (c < 0)) =
          sliceLast (diffs prices) period := by
      rw [List.filter_eq_self]
      intro a ha
      simpa using hneg a ha
    have hrlen : 0 < (sliceLast (diffs prices) period).length := by
      apply sliceLast_length_pos _ _ hp
      rw [diffs_length]
      omega
    have hlosslen :
        ¬ (((sliceLast (diffs prices) period).filter
            (fun c => decide (c < 0))).map (fun c => |c|)).length = 0 := by
      rw [hlossfil, List.length_map]
      omega
    have hsum : 0 < (((sliceLast (diffs prices) period).filter
        (fun c => decide (c < 0))).map (fun c => |c|)).sum := by
      apply List.sum_pos
      · intro a ha
        obtain ⟨b, hb, rfl⟩ := List.mem_map.mp ha
        have hbneg : b < 0 := by simpa using List.of_mem_filter hb
        exact abs_pos.mpr hbneg.ne
      · intro hnil
        rw [hnil] at hlosslen
        exact hlosslen rfl
    have havgL : 0 < (((sliceLast (diffs prices) period).filter
        (fun c => decide (c < 0))).map (fun c => |c|)).sum / (period : ℚ) :=
      div_pos hsum (by exact_mod_cast hp)
    simp only [calculateRSI]
    rw [if_neg hnot, if_neg hlosslen, hgains, if_neg (ne_of_gt havgL)]
    simp

theorem calculateRSI_bounds_spec_witness :
    calculateRSI [(10 : ℚ), 9, 8, 7, 6, 5, 4, 3, 2, 1, 0, -1, -2, -3, -4] 14 = 0 ∧
    (0 ≤ calculateRSI [(5 : ℚ), 7, 4, 9, 6, 8, 3, 5, 7, 2, 9, 4, 6, 8, 5] 14 ∧
     calculateRSI [(5 : ℚ), 7, 4, 9, 6, 8, 3, 5, 7, 2, 9, 4, 6, 8, 5] 14 ≤ 100) :=
  ⟨calculateRSI_bounds_spec.2 [(10 : ℚ), 9, 8, 7, 6, 5, 4, 3, 2, 1, 0, -1, -2, -3, -4]
      14 (by norm_num) (by norm_num) (by norm_num [List.chain'_cons]),
   calculateRSI_bounds_spec.1 [(5 : ℚ), 7, 4, 9, 6, 8, 3, 5, 7, 2, 9, 4, 6, 8, 5]
      14 (by norm_num) (by norm_num)⟩

theorem combineSignals_cases (v m : Signal) :
    (combineSignals v m = .STRONG_BUY ↔ (v = .BUY ∧ m = .BUY)) ∧
    (((v = .BUY ∧ m ≠ .BUY) ∨ (v ≠ .BUY ∧ m = .BUY)) →
      combineSignals v m = .BUY) ∧
    (v ≠ .BUY → m = .AVOID → combineSignals v m = .AVOID) ∧
    (v ≠ .BUY → m ≠ .BUY → m ≠ .AVOID → combineSignals v m = .WAIT) := by
  cases v <;> cases m <;> decide

theorem valueSignal_eq_BUY_iff (d : QuoteData) (t : TrendState) :
    (calculateInvestmentSignals d t).valueSignal = .BUY ↔
      (calculateCorrection d ≤ -CORRECTION_THRESHOLD ∧
       d.rsi < RSI_OVERSOLD ∧ d.pe_ratio < PE_ATTRACTIVE) := by
  by_cases h1 : calculateCorrection d ≤ -CORRECTION_THRESHOLD <;>
    by_cases h2 : d.rsi < RSI_OVERSOLD <;>
      by_cases h3 : d.pe_ratio < PE_ATTRACTIVE <;>
        simp [calculateInvestmentSignals, h1, h2, h3]

theorem valueSignal_eq_BUY_or_WAIT (d : QuoteData) (t : TrendState) :
    (calculateInvestmentSignals d t).valueSignal = .BUY ∨
    (calculateInvestmentSignals d t).valueSignal = .WAIT := by
  simp only [calculateInvestmentSignals]
  split
  · exact Or.inl rfl
  · exact Or.inr rfl

theorem updateInvestmentSignal_eq_BUY_iff (d : QuoteData) :
    updateInvestmentSignal d = .BUY ↔
      (|calculateCorrection d| ≥ CORRECTION_THRESHOLD ∧
       d.rsi < RSI_OVERSOLD ∧ d.pe_ratio < PE_ATTRACTIVE) := by
  by_cases h1 : |calculateCorrection d| ≥ CORRECTION_THRESHOLD <;>
    by_cases h2 : d.rsi < RSI_OVERSOLD <;>
      by_cases h3 : d.pe_ratio < PE_ATTRACTIVE <;>
        simp [updateInvestmentSignal, calculateCorrection, h1, h2, h3]

/-- C2: the combined signal follows the exact branch precedence of the
source — STRONG BUY when both the value and momentum signals are BUY,
else BUY when exactly one of them is BUY, else AVOID when the momentum
signal is AVOID, otherwise WAIT; in particular a simultaneous
value-BUY and momentum-AVOID yields BUY, not AVOID. -/
theorem combined_signal_precedence (d : QuoteData) (t : TrendState) :
    ((calculateInvestmentSignals d t).combinedSignal = .STRONG_BUY ↔
      ((calculateInvestmentSignals d t).valueSignal = .BUY ∧
       (calculateInvestmentSignals d t).momentumSignal = .BUY)) ∧
    ((((calculateInvestmentSignals d t).valueSignal = .BUY ∧
       (calculateInvestmentSignals d t).momentumSignal ≠ .BUY) ∨
      ((calculateInvestmentSignals d t).valueSignal ≠ .BUY ∧
       (calculateInvestmentSignals d t).momentumSignal = .BUY)) →
      (calculateInvestmentSignals d t).combinedSignal = .BUY) ∧
    ((calculateInvestmentSignals d t).valueSignal ≠ .BUY →
      (calculateInvestmentSignals d t).momentumSignal = .AVOID →
      (calculateInvestmentSignals d t).combinedSignal = .AVOID) ∧
    ((calculateInvestmentSignals d t).valueSignal ≠ .BUY →
      (calculateInvestmentSignals d t).momentumSignal ≠ .BUY →
      (calculateInvestmentSignals d t).momentumSignal ≠ .AVOID →
      (calculateInvestmentSignals d t).combinedSignal = .WAIT) ∧
    ((calculateInvestmentSignals d t).valueSignal = .BUY →
      (calculateInvestmentSignals d t).momentumSignal = .AVOID →
      (calculateInvestmentSignals d t).combinedSignal = .BUY) := by
  have hcomb : (calculateInvestmentSignals d t).combinedSignal =
      combineSignals (calculateInvestmentSignals d t).valueSignal
        (calculateInvestmentSignals d t).momentumSignal := rfl
  obtain ⟨h1, h2, h3, h4⟩ :=
    combineSignals_cases (calculateInvestmentSignals d t).valueSignal
      (calculateInvestmentSignals d t).momentumSignal
  rw [hcomb]
  refine ⟨h1, h2, h3, h4, fun hv hm => h2 (Or.inl ⟨hv, ?_⟩)⟩
  rw [hm]
  exact fun hc => Signal.noConfusion hc

theorem combined_signal_precedence_witness :
    (calculateInvestmentSignals ⟨85, 0, 0, 0, 0, 100, 20, 25, 0⟩
      ⟨.BEARISH, some 1, some 2, none, none⟩).valueSignal = .BUY ∧
    (calculateInvestmentSignals ⟨85, 0, 0, 0, 0, 100, 20, 25, 0⟩
      ⟨.BEARISH, some 1, some 2, none, none⟩).momentumSignal = .AVOID ∧
    (calculateInvestmentSignals ⟨85, 0, 0, 0, 0, 100, 20, 25, 0⟩
      ⟨.BEARISH, some 1, some 2, none, none⟩).combinedSignal = .BUY := by
  have hv : (calculateInvestmentSignals ⟨85, 0, 0, 0, 0, 100, 20, 25, 0⟩
      ⟨.BEARISH, some 1, some 2, none, none⟩).valueSignal = .BUY := by
    rw [valueSignal_eq_BUY_iff]
    norm_num [calculateCorrection, CORRECTION_THRESHOLD, RSI_OVERSOLD, PE_ATTRACTIVE]
  have hm : (calculateInvestmentSignals ⟨85, 0, 0, 0, 0, 100, 20, 25, 0⟩
      ⟨.BEARISH, some 1, some 2, none, none⟩).momentumSignal = .AVOID := rfl
  exact ⟨hv, hm,
    (combined_signal_precedence ⟨85, 0, 0, 0, 0, 100, 20, 25, 0⟩
      ⟨.BEARISH, some 1, some 2, none, none⟩).2.2.2.2 hv hm⟩

/-- C3 counterexample: at a quote 10% above the all-time high with
RSI 20 and PE 20, all three claimed conditions (absolute correction at
least the threshold, RSI below oversold, PE below attractive) hold, yet
`calculateInvestmentSignals` produces the value signal WAIT, because
its correction condition is `correction <= -threshold`, not an
absolute-value test. -/
theorem value_signal_abs_counterexample :
    (|calculateCorrection ⟨110, 0, 0, 0, 0, 100, 20, 20, 0⟩| ≥ CORRECTION_THRESHOLD ∧
     (⟨110, 0, 0, 0, 0, 100, 20, 20, 0⟩ : QuoteData).rsi < RSI_OVERSOLD ∧
     (⟨110, 0, 0, 0, 0, 100, 20, 20, 0⟩ : QuoteData).pe_ratio < PE_ATTRACTIVE) ∧
    (calculateInvestmentSignals ⟨110, 0, 0, 0, 0, 100, 20, 20, 0⟩
      ⟨.UNKNOWN, none, none, none, none⟩).valueSignal = .WAIT := by
  constructor
  · norm_num [calculateCorrection, CORRECTION_THRESHOLD, RSI_OVERSOLD, PE_ATTRACTIVE]
  · rcases valueSignal_eq_BUY_or_WAIT ⟨110, 0, 0, 0, 0, 100, 20, 20, 0⟩
      ⟨.UNKNOWN, none, none, none, none⟩ with h | h
    · exfalso
      have hc := (valueSignal_eq_BUY_iff ⟨110, 0, 0, 0, 0, 100, 20, 20, 0⟩
        ⟨.UNKNOWN, none, none, none, none⟩).mp h
      norm_num [calculateCorrection, CORRECTION_THRESHOLD] at hc
    · exact h

/-- C3 amended: the two tracker variants differ.  In the enhanced
tracker's `calculateInvestmentSignals` the value signal is BUY exactly
when `correction <= -correctionThreshold` (a decline of at least the
threshold — a price above the all-time high never qualifies) and
RSI < oversold and PE < attractive; in app.js's
`updateInvestmentSignal` the badge is BUY exactly when
`abs(correction) >= correctionThreshold` and the same RSI and PE
conditions hold, as the claim states. -/
theorem value_signal_characterization (d : QuoteData) (t : TrendState) :
    ((calculateInvestmentSignals d t).valueSignal = .BUY ↔
      (calculateCorrection d ≤ -CORRECTION_THRESHOLD ∧
       d.rsi < RSI_OVERSOLD ∧ d.pe_ratio < PE_ATTRACTIVE)) ∧
    (updateInvestmentSignal d = .BUY ↔
      (|calculateCorrection d| ≥ CORRECTION_THRESHOLD ∧
       d.rsi < RSI_OVERSOLD ∧ d.pe_ratio < PE_ATTRACTIVE)) :=
  ⟨valueSignal_eq_BUY_iff d t, updateInvestmentSignal_eq_BUY_iff d⟩

theorem value_signal_characterization_witness :
    updateInvestmentSignal ⟨110, 0, 0, 0, 0, 100, 20, 20, 0⟩ = .BUY :=
  (value_signal_characterization ⟨110, 0, 0, 0, 0, 100, 20, 20, 0⟩
    ⟨.UNKNOWN, none, none, none, none⟩).2.mpr
    (by norm_num [calculateCorrection, CORRECTION_THRESHOLD, RSI_OVERSOLD,
      PE_ATTRACTIVE])

theorem getLast?_replicate_succ (n : ℕ) (a : ℚ) :
    (List.replicate (n + 1) a).getLast? = some a := by
  induction n with
  | zero => rfl
  | succ m ih =>
    rw [List.replicate_succ, List.replicate_succ, List.getLast?_cons_cons,
      ← List.replicate_succ]
    exact ih

/-- C7: the trend resolver is UNKNOWN exactly when either EMA sequence
is empty and otherwise BULLISH exactly on a strict `lastFast > lastSlow`
(so an exact tie resolves to BEARISH); a step whose current fast and
slow values are equal classifies as no crossover; and on 60 bars of
constant price 100 with periods 20/50 both EMAs are constantly 100, no
crossovers are detected, and the trend is BEARISH. -/
theorem getCurrentEMATrend_spec (ema20 ema50 : List ℚ)
    (crossovers : List Crossover) (today : ℤ) :
    ((getCurrentEMATrend ema20 ema50 crossovers today).trend = .UNKNOWN ↔
      (ema20 = [] ∨ ema50 = [])) ∧
    (∀ a b, ema20.getLast? = some a → ema50.getLast? = some b →
      (getCurrentEMATrend ema20 ema50 crossovers today).trend =
        (if a > b then .BULLISH else .BEARISH)) ∧
    (∀ p20 p50 c : ℚ, classifyCross p20 p50 c c = none) ∧
    ((getCurrentEMATrend (calculateEMA (List.replicate 60 100) 20)
        (calculateEMA (List.replicate 60 100) 50) [] today).trend = .BEARISH) ∧
    (detectCrossovers (calculateEMA (List.replicate 60 100) 20)
        (calculateEMA (List.replicate 60 100) 50)
        ((List.range 60).map (fun i =>
          ⟨i, some 100, none, none, none, none⟩)) = .ok []) := by
  refine ⟨?_, ?_, ?_, ?_, ?_⟩
  · rcases h20 : ema20.getLast? with _ | a <;> rcases h50 : ema50.getLast? with _ | b
    · simp [getCurrentEMATrend, h20, h50, List.getLast?_eq_none_iff.mp h20]
    · simp [getCurrentEMATrend, h20, h50, List.getLast?_eq_none_iff.mp h20]
    · simp [getCurrentEMATrend, h20, h50, List.getLast?_eq_none_iff.mp h50]
    · have hne20 : ema20 ≠ [] := by
        intro hh
        rw [hh] at h20
        exact Option.noConfusion h20
      have hne50 : ema50 ≠ [] := by
        intro hh
        rw [hh] at h50
        exact Option.noConfusion h50
      simp only [getCurrentEMATrend, h20, h50]
      constructor
      · intro h
        split at h <;> exact TrendDir.noConfusion h
      · intro h
        rcases h with h | h
        · exact absurd h hne20
        · exact absurd h hne50
  · intro a b ha hb
    simp [getCurrentEMATrend, ha, hb]
  · intro p20 p50 c
    simp [classifyCross, lt_irrefl]
  · rw [calculateEMA_replicate 60 20 100 (by norm_num) (by norm_num),
      calculateEMA_replicate 60 50 100 (by norm_num) (by norm_num)]
    have h41 : (List.replicate (60 - 20 + 1) (100 : ℚ)).getLast? = some 100 :=
      getLast?_replicate_succ 40 100
    have h11 : (List.replicate (60 - 50 + 1) (100 : ℚ)).getLast? = some 100 :=
      getLast?_replicate_succ 10 100
    simp [getCurrentEMATrend, h41, h11, lt_irrefl]
  · rw [calculateEMA_replicate 60 20 100 (by norm_num) (by norm_num),
      calculateEMA_replicate 60 50 100 (by norm_num) (by norm_num)]
    rfl

theorem getCurrentEMATrend_spec_witness :
    (getCurrentEMATrend [(1 : ℚ), 2] [1] [] 0).trend = .BULLISH := by
  have h := (getCurrentEMATrend_spec [(1 : ℚ), 2] [1] [] 0).2.1 2 1 rfl rfl
  rw [h, if_pos (by norm_num)]

theorem crossStep_skip (ema20 ema50 : List ℚ) (bars : List RawBar) (i : ℕ)
    (h : jsVal (ema20.get? i) = none ∨
      jsVal (ema50.get? (i - crossStartIndex + EMA_PERIOD_20 - 1)) = none ∨
      jsVal (ema20.get? (i - 1)) = none ∨
      jsVal (ema50.get? (i - crossStartIndex + EMA_PERIOD_20 - 2)) = none) :
    crossStep ema20 ema50 bars i = .ok none := by
  unfold crossStep
  rcases h with h | h | h | h
  · rw [h]
  · cases hA : jsVal (ema20.get? i) with
    | none => rfl
    | some c => rw [h]
  · cases hA : jsVal (ema20.get? i) with
    | none => rfl
    | some c =>
      cases hB : jsVal (ema50.get? (i - crossStartIndex + EMA_PERIOD_20 - 1)) with
      | none => rfl
      | some c50 => rw [h]
  · cases hA : jsVal (ema20.get? i) with
    | none => rfl
    | some c =>
      cases hB : jsVal (ema50.get? (i - crossStartIndex + EMA_PERIOD_20 - 1)) with
      | none => rfl
      | some c50 =>
        cases hC : jsVal (ema20.get? (i - 1)) with
        | none => rfl
        | some p => rw [h]

theorem crossStep_all_some (ema20 ema50 : List ℚ) (bars : List RawBar) (i : ℕ)
    (c20 c50 p20 p50 : ℚ)
    (h1 : jsVal (ema20.get? i) = some c20)
    (h2 : jsVal (ema50.get? (i - crossStartIndex + EMA_PERIOD_20 - 1)) = some c50)
    (h3 : jsVal (ema20.get? (i - 1)) = some p20)
    (h4 : jsVal (ema50.get? (i - crossStartIndex + EMA_PERIOD_20 - 2)) = some p50) :
    crossStep ema20 ema50 bars i =
      match classifyCross p20 p50 c20 c50 with
      | some t =>
        match bars.get? i with
        | some bar => .ok (some ⟨bar.date, t, bar.close, c20, c50⟩)
        | none => .error "TypeError: reading date of undefined"
      | none => .ok none := by
  unfold crossStep
  rw [h1, h2, h3, h4]

theorem crossStep_ok_of_lt (ema20 ema50 : List ℚ) (bars : List RawBar)
    (i : ℕ) (h : i < bars.length) :
    ∃ o, crossStep ema20 ema50 bars i = .ok o := by
  cases hA : jsVal (ema20.get? i) with
  | none => exact ⟨none, crossStep_skip ema20 ema50 bars i (Or.inl hA)⟩
  | some c20 =>
    cases hB : jsVal (ema50.get? (i - crossStartIndex + EMA_PERIOD_20 - 1)) with
    | none => exact ⟨none, crossStep_skip ema20 ema50 bars i (Or.inr (Or.inl hB))⟩
    | some c50 =>
      cases hC : jsVal (ema20.get? (i - 1)) with
      | none =>
        exact ⟨none, crossStep_skip ema20 ema50 bars i (Or.inr (Or.inr (Or.inl hC)))⟩
      | some p20 =>
        cases hD : jsVal (ema50.get? (i - crossStartIndex + EMA_PERIOD_20 - 2)) with
        | none =>
          exact ⟨none, crossStep_skip ema20 ema50 bars i (Or.inr (Or.inr (Or.inr hD)))⟩
        | some p50 =>
          rw [crossStep_all_some ema20 ema50 bars i c20 c50 p20 p50 hA hB hC hD]
          cases classifyCross p20 p50 c20 c50 with
          | none => exact ⟨none, rfl⟩
          | some t =>
            rw [List.get?_eq_get h]
            exact ⟨some _, rfl⟩

theorem crossLoop_ok (ema20 ema50 : List ℚ) (bars : List RawBar) :
    (is : List ℕ) → (∀ i ∈ is, ∃ o, crossStep ema20 ema50 bars i = .ok o) →
      ∃ l, crossLoop ema20 ema50 bars is = .ok l
  | [], _ => ⟨[], rfl⟩
  | i :: is, h => by
    obtain ⟨o, ho⟩ := h i (List.mem_cons_self i is)
    obtain ⟨l, hl⟩ := crossLoop_ok ema20 ema50 bars is
      (fun j hj => h j (List.mem_cons_of_mem i hj))
    cases o with
    | some c => exact ⟨c :: l, by simp only [crossLoop, ho, hl]⟩
    | none => exact ⟨l, by simp only [crossLoop, ho, hl]⟩

/-- C10 counterexample: with a fast EMA of length 31, a slow EMA of
length 20 and an empty bar list (all lengths at least 2), the scanned
step at index 30 finds four truthy EMA values forming a bullish cross
and then reads `historicalData[30]`, which does not exist — the source
throws a TypeError instead of returning. -/
theorem detectCrossovers_throws :
    detectCrossovers (List.replicate 30 1 ++ [3])
      (List.replicate 19 2 ++ [1]) [] =
      .error "TypeError: reading date of undefined" := rfl

/-- C10 amended: `detectCrossovers` never throws provided the bar list
covers the scanned fast-EMA indices (in particular whenever
`bars.length >= ema20.length`, as holds when both are derived from the
same bar list); and a scanned step at which any of the four consulted
EMA lookups is out of range or exactly 0 is skipped and emits no
event. -/
theorem detectCrossovers_safe (ema20 ema50 : List ℚ) (bars : List RawBar) :
    (ema20.length ≤ bars.length →
      ∃ l, detectCrossovers ema20 ema50 bars = .ok l) ∧
    (∀ i, (ema20.get? i = none ∨ ema20.get? i = some 0 ∨
        ema50.get? (i - crossStartIndex + EMA_PERIOD_20 - 1) = none ∨
        ema50.get? (i - crossStartIndex + EMA_PERIOD_20 - 1) = some 0 ∨
        ema20.get? (i - 1) = none ∨ ema20.get? (i - 1) = some 0 ∨
        ema50.get? (i - crossStartIndex + EMA_PERIOD_20 - 2) = none ∨
        ema50.get? (i - crossStartIndex + EMA_PERIOD_20 - 2) = some 0) →
      crossStep ema20 ema50 bars i = .ok none) := by
  constructor
  · intro hlen
    unfold detectCrossovers
    split
    · exact ⟨[], rfl⟩
    · apply crossLoop_ok
      intro i hi
      rw [List.mem_range'_1] at hi
      apply crossStep_ok_of_lt
      have h30 : crossStartIndex = 30 := rfl
      rw [h30] at hi
      omega
  · intro i hdisj
    apply crossStep_skip
    rcases hdisj with h | h | h | h | h | h | h | h
    · exact Or.inl (by rw [h]; rfl)
    · exact Or.inl (by rw [h]; simp [jsVal])
    · exact Or.inr (Or.inl (by rw [h]; rfl))
    · exact Or.inr (Or.inl (by rw [h]; simp [jsVal]))
    · exact Or.inr (Or.inr (Or.inl (by rw [h]; rfl)))
    · exact Or.inr (Or.inr (Or.inl (by rw [h]; simp [jsVal])))
    · exact Or.inr (Or.inr (Or.inr (by rw [h]; rfl)))
    · exact Or.inr (Or.inr (Or.inr (by rw [h]; simp [jsVal])))

theorem detectCrossovers_safe_witness :
    (∃ l, detectCrossovers [(1 : ℚ), 2] [1, 2]
      [⟨1, some 1, none, none, none, none⟩,
       ⟨2, some 2, none, none, none, none⟩] = .ok l) ∧
    crossStep [(1 : ℚ), 2] [1, 2]
      [⟨1, some 1, none, none, none, none⟩,
       ⟨2, some 2, none, none, none, none⟩] 5 = .ok none :=
  ⟨(detectCrossovers_safe [(1 : ℚ), 2] [1, 2]
      [⟨1, some 1, none, none, none, none⟩,
       ⟨2, some 2, none, none, none, none⟩]).1 (by norm_num),
   (detectCrossovers_safe [(1 : ℚ), 2] [1, 2]
      [⟨1, some 1, none, none, none, none⟩,
       ⟨2, some 2, none, none, none, none⟩]).2 5 (Or.inl rfl)⟩

theorem loadCachedData_spec_witness :
    (loadCachedData
      ⟨some (cacheData ⟨1, 2, 3, 4, 5, 6, 7, 8, 9⟩ 1000), none, none⟩ 2000
      ⟨none, [], ⟨[], [], []⟩⟩).data = some ⟨1, 2, 3, 4, 5, 6, 7, 8, 9⟩ :=
  (loadCachedData_spec
    ⟨some (cacheData ⟨1, 2, 3, 4, 5, 6, 7, 8, 9⟩ 1000), none, none⟩ 2000
    ⟨none, [], ⟨[], [], []⟩⟩).1 ⟨1, 2, 3, 4, 5, 6, 7, 8, 9⟩ 1000 rfl
    (by norm_num [QUOTE_CACHE_WINDOW])
